import Mathlib

/-! httphook: a logrus hook posting log entries over HTTP.

Shallow embedding of `httphook.go` (`New`, `Hook.Levels`, `Hook.Fire`, the `Hook` and `Log`
types) and the properties of `Fire` that its description states.

Modelling decisions.

* Go pointers (`*http.Request`, `*http.Response`) are passed to the callbacks by reference; a
  callback is therefore a function that returns the (possibly modified) value it was handed,
  together with the `error` it returns (`none` for `nil`).
* `Fire` has a value receiver. Its result carries the receiver as it stands when `Fire`
  returns, the returned `error`, and the list of the calls `Fire` made to its collaborators
  (`json.Marshal`, `http.NewRequest`, `BeforePost`, `client.Do`, `AfterPost`), in order.
* The collaborators that live outside the package and whose results depend on the outside
  world or on code not in this repository (`json.Marshal`, `url.Parse`, `http.Client.Do`,
  `strconv.Quote`) are the fields of `Env`. The small pure parts of the Go standard library
  that `Fire` relies on (`fmt.Errorf` with `%v`, `http.NewRequest`, `http.Header.Add` and
  `Get`) are modelled after their documentation.
* `int` is `Int`: `Fire` only compares the status code and prints it, so no wrap-around arises.
-/

namespace Httphook

/-! ## Go values used by the package -/

/-- A Go `error` value that is not `nil`. `errors.New` and `fmt.Errorf` without `%w` give an
`errorString`; a value of any other dynamic type is `other`, with the name of its type and
the text its `Error` method returns. -/
inductive GoError where
  | errorString (s : String)
  | other (typeName : String) (text : String)
deriving DecidableEq, Repr

/-- The `Error()` method. -/
def GoError.Error : GoError → String
  | .errorString s => s
  | .other _ text => text

/-- A byte slice (`[]byte`), each byte a number below 256. -/
abbrev Bytes := List Nat

/-- A value held in an `interface{}` (the values of `logrus.Fields`). -/
inductive GoValue where
  | null
  | bool (b : Bool)
  | int (i : Int)
  | str (s : String)
  | chan (elemType : String)
  | func
deriving DecidableEq, Repr

/-- The type `logrus.Fields`, `map[string]interface{}`, as an association list. -/
abbrev Fields := List (String × GoValue)

/-- The type `logrus.Level`, an unsigned number. -/
abbrev Level := Nat

/-- The slice `logrus.AllLevels`: panic, fatal, error, warn, info, debug, trace. -/
def AllLevels : List Level := [0, 1, 2, 3, 4, 5, 6]

/-- A `time.Time`: seconds and nanoseconds since the epoch, and the name of its location. -/
structure Time where
  sec : Int
  nsec : Nat
  loc : String
deriving DecidableEq, Repr

/-- The fields of `logrus.Entry` that are data (the logger, buffer and context are left out). -/
structure Entry where
  Data : Fields
  Time : Time
  Level : Level
  Message : String
deriving DecidableEq, Repr

/-- A parsed URL (`*url.URL`). -/
structure URL where
  Scheme : String
  Host : String
  Path : String
  RawQuery : String
deriving DecidableEq, Repr

/-! ## `net/http` headers -/

/-- The bytes `textproto` accepts in a header field name: the token characters of RFC 7230. -/
def validHeaderFieldByte (c : Char) : Bool :=
  c.isAlphanum || c.toNat ∈ [33, 35, 36, 37, 38, 39, 42, 43, 45, 46, 94, 95, 96, 124, 126]

/-- Upper-cases the first letter and every letter after a hyphen, lower-cases the others. -/
def canonicalizeChars : Bool → List Char → List Char
  | _, [] => []
  | upper, c :: cs =>
    let c1 := if upper then c.toUpper else c.toLower
    c1 :: canonicalizeChars (c1 = '-') cs

/-- The function `textproto.CanonicalMIMEHeaderKey`: a key holding a byte that is not valid in
a field name is returned as it is, any other key in canonical form. -/
def CanonicalMIMEHeaderKey (s : String) : String :=
  if s.data.all validHeaderFieldByte then String.mk (canonicalizeChars true s.data) else s

/-- The type `http.Header`, `map[string][]string`, as an association list with distinct keys. -/
abbrev Header := List (String × List String)

/-- Appends `value` to the values stored under `key` (`append(h[key], value)`). -/
def Header.addRaw (key value : String) : Header → Header
  | [] => [(key, [value])]
  | (k, vs) :: rest =>
    if k = key then (k, vs ++ [value]) :: rest else (k, vs) :: Header.addRaw key value rest

/-- The method `Header.Add`: the key is canonicalized, the value appended. -/
def Header.Add (h : Header) (key value : String) : Header :=
  Header.addRaw (CanonicalMIMEHeaderKey key) value h

/-- The method `Header.Get`: the first value under the canonicalized key, or `""`. -/
def Header.Get (h : Header) (key : String) : String :=
  match h.lookup (CanonicalMIMEHeaderKey key) with
  | some (v :: _) => v
  | _ => ""

/-! ## Requests, responses and the outside world -/

/-- The fields of `http.Request` that `http.NewRequest` fills in from its arguments. -/
structure Request where
  Method : String
  URL : URL
  Header : Header
  Body : Bytes
deriving DecidableEq, Repr

/-- The fields of `http.Response` that are data. -/
structure Response where
  StatusCode : Int
  Header : Header
  Body : Bytes
deriving DecidableEq, Repr

/-- An `http.Client` value; `http.Client{}` has no transport, no jar and no timeout. -/
structure Client where
  Timeout : Int
deriving DecidableEq, Repr

/-- The type `BeforeFunc`, `func(req *http.Request) error`: the request as the callback leaves
it, and the error it returns. -/
abbrev BeforeFunc := Request → Request × Option GoError

/-- The type `AfterFunc`, `func(res *http.Response) error`: the response as the callback
leaves it, and the error it returns. -/
abbrev AfterFunc := Response → Response × Option GoError

/-- The type `Log`: the format in which entries are posted. -/
structure Log where
  Message : String
  Fields : Fields
  Timestamp : Time
deriving DecidableEq, Repr

/-- The value of a member of the posted document. -/
inductive Member where
  | string (s : String)
  | object (f : Fields)
  | time (t : Time)
deriving DecidableEq, Repr

/-- The members of a `Log` as `encoding/json` sees them: the struct tag of each field with the
value of the field, in declaration order. -/
def Log.members (log : Log) : List (String × Member) :=
  [("message", .string log.Message), ("fields", .object log.Fields),
    ("timestamp", .time log.Timestamp)]

/-- The type `Hook`. A callback slot holding `nil` is `none`. -/
structure Hook where
  client : Client
  levels : List Level
  endpoint : String
  name : String
  BeforePost : Option BeforeFunc
  AfterPost : Option AfterFunc

/-- The collaborators outside the package. -/
structure Env where
  /-- The function `json.Marshal` at type `Log`. -/
  jsonMarshal : Log → Except GoError Bytes
  /-- The function `url.Parse`. -/
  urlParse : String → Except GoError URL
  /-- The function `strconv.Quote`, which renders the verb `%q`. -/
  strconvQuote : String → String
  /-- The method `http.Client.Do`: the exchange with the server. -/
  clientDo : Client → Request → Except GoError Response

/-! ## `fmt` -/

/-- An operand of a formatting call. -/
inductive FmtArg where
  | err (e : GoError)
  | int (i : Int)
deriving DecidableEq, Repr

/-- The rendering of an operand under the verb `%v`: an `error` prints what its `Error` method
returns, an `int` prints in decimal. -/
def FmtArg.render : FmtArg → String
  | .err e => e.Error
  | .int i => toString i

/-- Runs through a format in which `%v` is the only verb, consuming one operand per verb; a
verb without an operand prints as `%!v(MISSING)`. -/
def sprintfChars : List Char → List FmtArg → List Char
  | [], _ => []
  | '%' :: 'v' :: rest, a :: args => a.render.data ++ sprintfChars rest args
  | '%' :: 'v' :: rest, [] => "%!v(MISSING)".data ++ sprintfChars rest []
  | c :: rest, args => c :: sprintfChars rest args

/-- The function `fmt.Errorf` for formats whose only verb is `%v`: an `errorString` with the
formatted text. -/
def Errorf (format : String) (args : List FmtArg) : GoError :=
  .errorString (String.mk (sprintfChars format.data args))

/-! ## `http.NewRequest` -/

/-- The check `validMethod` of `net/http`: a non-empty token. -/
def validMethod (method : String) : Bool :=
  method.length > 0 && method.data.all validHeaderFieldByte

/-- The function `http.NewRequest`: an empty method stands for `GET`, the method must be a
token, the URL must parse; the request has the method, the parsed URL, an empty header and
the body. -/
def NewRequest (env : Env) (method url : String) (body : Bytes) : Except GoError Request :=
  let method := if method = "" then "GET" else method
  if validMethod method = false then
    .error (.errorString ("net/http: invalid method " ++ env.strconvQuote method))
  else
    match env.urlParse url with
    | .error err => .error err
    | .ok u => .ok { Method := method, URL := u, Header := [], Body := body }

/-! ## The package -/

/-- The constant `http.StatusCreated`. -/
def StatusCreated : Int := 201

/-- A call `Fire` makes to a collaborator, with the arguments of the call. -/
inductive Call where
  | jsonMarshal (log : Log)
  | newRequest (method url : String) (body : Bytes)
  | beforePost (req : Request)
  | clientDo (client : Client) (req : Request)
  | afterPost (resp : Response)
deriving DecidableEq, Repr

/-- What a call of `Fire` leaves behind: the receiver, the returned `error` (`none` for
`nil`) and the calls made, in order. -/
structure FireResult where
  hook : Hook
  err : Option GoError
  trace : List Call

/-- The function `New`. -/
def New (name endpoint : String) (levels : List Level) : Hook :=
  { client := { Timeout := 0 }
    levels := levels
    endpoint := endpoint
    name := name
    BeforePost := none
    AfterPost := none }

/-- The method `Hook.Levels`. -/
def Hook.Levels (h : Hook) : List Level :=
  h.levels

/-- The method `Hook.Fire`. -/
def Hook.Fire (env : Env) (h : Hook) (entry : Entry) : FireResult :=
  let log : Log :=
    { Message := entry.Message
      Fields := entry.Data
      Timestamp := entry.Time }
  -- Convert the log to JSON.
  let t1 := [Call.jsonMarshal log]
  match env.jsonMarshal log with
  | .error err =>
    ⟨h, some (Errorf "failed to marshal payload due to error %v" [.err err]), t1⟩
  | .ok payload =>
    let body := payload
    -- Create a request
    let t2 := t1 ++ [Call.newRequest "POST" h.endpoint body]
    match NewRequest env "POST" h.endpoint body with
    | .error err =>
      ⟨h, some (Errorf "failed to build request due to error %v" [.err err]), t2⟩
    | .ok req =>
      -- Set appropriate headers so we can identify the service.
      let req := { req with Header := req.Header.Add "service-name" h.name }
      let req := { req with Header := req.Header.Add "content-type" "application/json" }
      -- Run the custom before post handler if it has been configured.
      let before : Request × Option GoError × List Call :=
        match h.BeforePost with
        | some f => ((f req).1, (f req).2, t2 ++ [Call.beforePost req])
        | none => (req, none, t2)
      match before with
      | (_, some err, t3) => ⟨h, some err, t3⟩
      | (req, none, t3) =>
        -- Send the request.
        let t4 := t3 ++ [Call.clientDo h.client req]
        match env.clientDo h.client req with
        | .error err =>
          ⟨h, some (Errorf "failed to perform request due to error %v" [.err err]), t4⟩
        | .ok resp =>
          -- Run the custom after post handler if it has been configured.
          let after : Response × Option GoError × List Call :=
            match h.AfterPost with
            | some g => ((g resp).1, (g resp).2, t4 ++ [Call.afterPost resp])
            | none => (resp, none, t4)
          match after with
          | (_, some err, t5) => ⟨h, some err, t5⟩
          | (resp, none, t5) =>
            -- Return an error if the status code is greater than 201.
            if resp.StatusCode > StatusCreated then
              ⟨h, some (Errorf
                "failed to post payload, the server responded with a status of %v"
                [.int resp.StatusCode]), t5⟩
            else
              -- Otherwise, success.
              ⟨h, none, t5⟩

/-! ## Helpers for stating the properties -/

/-- The document `Fire` builds from an entry. -/
def Entry.toLog (entry : Entry) : Log :=
  { Message := entry.Message, Fields := entry.Data, Timestamp := entry.Time }

/-- The request as `Fire` leaves it after setting the two headers on the request that
`http.NewRequest` returned. -/
def Hook.prepare (h : Hook) (req : Request) : Request :=
  { req with
    Header := (req.Header.Add "service-name" h.name).Add "content-type" "application/json" }

/-- The pre-send step: with no callback the request stays as it is and no error arises. -/
def Hook.runBefore (h : Hook) (req : Request) : Request × Option GoError :=
  match h.BeforePost with
  | some f => f req
  | none => (req, none)

/-- The post-send step: with no callback the response stays as it is and no error arises. -/
def Hook.runAfter (h : Hook) (resp : Response) : Response × Option GoError :=
  match h.AfterPost with
  | some g => g resp
  | none => (resp, none)

/-- The call of the pre-send callback, when one is set. -/
def Hook.beforeCalls (h : Hook) (req : Request) : List Call :=
  match h.BeforePost with
  | some _ => [Call.beforePost req]
  | none => []

/-- The call of the post-send callback, when one is set. -/
def Hook.afterCalls (h : Hook) (resp : Response) : List Call :=
  match h.AfterPost with
  | some _ => [Call.afterPost resp]
  | none => []

/-- Whether a call is the transmission of a request. -/
def Call.isClientDo : Call → Bool
  | .clientDo _ _ => true
  | _ => false

/-- Whether a call is a call of the pre-send callback. -/
def Call.isBeforePost : Call → Bool
  | .beforePost _ => true
  | _ => false

/-- Whether a call is a call of the post-send callback. -/
def Call.isAfterPost : Call → Bool
  | .afterPost _ => true
  | _ => false

/-- Whether a call builds a request. -/
def Call.isNewRequest : Call → Bool
  | .newRequest _ _ _ => true
  | _ => false

/-! ## Sample data: the cases of `TestHook_Fire` -/

/-- The entry of the test cases with a valid payload. -/
def testEntry : Entry :=
  { Data := [("test-key", .str "test-value")]
    Time := { sec := 1546300800, nsec := 0, loc := "UTC" }
    Level := 4
    Message := "test-message" }

/-- The entry of test case 2, whose field holds a channel. -/
def chanEntry : Entry :=
  { Data := [("test-key", .chan "int")]
    Time := { sec := 0, nsec := 0, loc := "UTC" }
    Level := 0
    Message := "" }

/-- Whether a field value is one `encoding/json` has no encoding for. -/
def GoValue.unsupported : GoValue → Option String
  | .chan t => some ("chan " ++ t)
  | .func => some "func()"
  | _ => none

/-- A stand-in for `json.Marshal`: the first unsupported field value is reported the way
`encoding/json` does; any other document is encoded as its message between braces. -/
def testMarshal (log : Log) : Except GoError Bytes :=
  match log.Fields.findSome? (fun kv => kv.2.unsupported) with
  | some t => .error (.other "*json.UnsupportedTypeError" ("json: unsupported type: " ++ t))
  | none => .ok ([123] ++ log.Message.data.map Char.toNat ++ [125])

/-- What `testMarshal` gives for `testEntry`: `test-message` between braces. -/
def testPayload : Bytes := [123, 116, 101, 115, 116, 45, 109, 101, 115, 115, 97, 103, 101, 125]

/-- A stand-in for `url.Parse`, with the failure test case 3 expects on `":"`. -/
def testParse (url : String) : Except GoError URL :=
  if url = ":" then .error (.other "*url.Error" "parse :: missing protocol scheme")
  else if url = "http://localhost:8080/logs" then .ok ⟨"http", "localhost:8080", "/logs", ""⟩
  else if url = "http://localhost:8080/invalid" then
    .ok ⟨"http", "localhost:8080", "/invalid", ""⟩
  else if url = "http://localhost:8080/upgrade" then
    .ok ⟨"http", "localhost:8080", "/upgrade", ""⟩
  else if url = "http://localhost:8081/invalid" then
    .ok ⟨"http", "localhost:8081", "/invalid", ""⟩
  else .ok ⟨"", "", url, ""⟩

/-- A stand-in for the network: a server on port 8080 answers 200 on `/logs`, 101 on
`/upgrade` and 404 elsewhere; nothing listens on any other port. -/
def testDo (_ : Client) (req : Request) : Except GoError Response :=
  if req.URL.Host = "localhost:8080" then
    if req.URL.Path = "/logs" then .ok ⟨200, [], []⟩
    else if req.URL.Path = "/upgrade" then .ok ⟨101, [], []⟩
    else .ok ⟨404, [], []⟩
  else
    .error (.other "*url.Error" "Post http://localhost:8081/invalid: dial tcp [::1]:8081: connection refused")

/-- The test environment. -/
def testEnv : Env :=
  { jsonMarshal := testMarshal
    urlParse := testParse
    strconvQuote := fun s => "\"" ++ s ++ "\""
    clientDo := testDo }

/-- A pre-send callback that fails with `before-error`. -/
def failingBefore : BeforeFunc := fun req => (req, some (.errorString "before-error"))

/-- A post-send callback that fails with `after-error`. -/
def failingAfter : AfterFunc := fun resp => (resp, some (.errorString "after-error"))

/-- A pre-send callback that adds a header and succeeds. -/
def tokenBefore : BeforeFunc :=
  fun req => ({ req with Header := req.Header.Add "authorization" "token" }, none)

/-- A post-send callback that succeeds. -/
def quietAfter : AfterFunc := fun resp => (resp, none)

/-- The hook of test case 1: the server answers 200. -/
def okHook : Hook := New "test-service" "http://localhost:8080/logs" AllLevels

/-- A hook whose server answers 101. -/
def upgradeHook : Hook := New "test-service" "http://localhost:8080/upgrade" AllLevels

/-- The hook of test case 6: the server answers 404, no callback is set. -/
def notFoundHook : Hook := New "test-service" "http://localhost:8080/invalid" AllLevels

/-- The hook of test case 3: the endpoint `":"`. -/
def badUrlHook : Hook := New "" ":" []

/-- The hook of test case 4: the pre-send callback fails. -/
def beforeErrHook : Hook := { New "" "" [] with BeforePost := some failingBefore }

/-- A hook whose server answers 404 and whose post-send callback fails. -/
def afterErrHook : Hook := { notFoundHook with AfterPost := some failingAfter }

/-- The hook of test case 7: nothing listens at the endpoint; both callbacks succeed. -/
def refusedHook : Hook :=
  { New "test-service" "http://localhost:8081/invalid" AllLevels with
    BeforePost := some tokenBefore
    AfterPost := some quietAfter }

/-! ## The scheme of an endpoint -/

/-- The loop of `getScheme` in `net/url`, with the characters read so far: letters go on; a
digit, `+`, `-` or `.` goes on unless it comes first, where it means there is no scheme; a
colon ends the scheme, and in first position is the failure `missing protocol scheme`; any
other character means there is no scheme. -/
def getSchemeLoop (rawURL : String) : List Char → List Char → Except GoError (String × String)
  | _, [] => .ok ("", rawURL)
  | seen, c :: cs =>
    if c.isAlpha then getSchemeLoop rawURL (seen ++ [c]) cs
    else if c.isDigit || c = '+' || c = '-' || c = '.' then
      if seen = [] then .ok ("", rawURL) else getSchemeLoop rawURL (seen ++ [c]) cs
    else if c = ':' then
      if seen = [] then .error (.errorString "missing protocol scheme")
      else .ok (String.mk seen, String.mk cs)
    else .ok ("", rawURL)

/-- The function `getScheme` of `net/url`: the scheme of a raw URL and what follows it. -/
def getScheme (rawURL : String) : Except GoError (String × String) :=
  getSchemeLoop rawURL [] rawURL.data

/-- Whether an endpoint is missing a URL scheme: `getScheme` fails on it or finds none. -/
def missingScheme (endpoint : String) : Bool :=
  match getScheme endpoint with
  | .ok (scheme, _) => scheme = ""
  | .error _ => true

/-! ## Lemmas on the library models -/

theorem sprintfChars_verb (a : FmtArg) : sprintfChars ['%', 'v'] [a] = a.render.data := by
  simp [sprintfChars]

theorem Errorf_marshal (a : FmtArg) :
    Errorf "failed to marshal payload due to error %v" [a]
      = .errorString ("failed to marshal payload due to error " ++ a.render) := by
  have h : sprintfChars "failed to marshal payload due to error %v".data [a]
      = "failed to marshal payload due to error ".data ++ sprintfChars ['%', 'v'] [a] := rfl
  simp only [Errorf, h, sprintfChars_verb]
  congr 1

theorem Errorf_build (a : FmtArg) :
    Errorf "failed to build request due to error %v" [a]
      = .errorString ("failed to build request due to error " ++ a.render) := by
  have h : sprintfChars "failed to build request due to error %v".data [a]
      = "failed to build request due to error ".data ++ sprintfChars ['%', 'v'] [a] := rfl
  simp only [Errorf, h, sprintfChars_verb]
  congr 1

theorem Errorf_perform (a : FmtArg) :
    Errorf "failed to perform request due to error %v" [a]
      = .errorString ("failed to perform request due to error " ++ a.render) := by
  have h : sprintfChars "failed to perform request due to error %v".data [a]
      = "failed to perform request due to error ".data ++ sprintfChars ['%', 'v'] [a] := rfl
  simp only [Errorf, h, sprintfChars_verb]
  congr 1

theorem Errorf_status (a : FmtArg) :
    Errorf "failed to post payload, the server responded with a status of %v" [a]
      = .errorString
          ("failed to post payload, the server responded with a status of " ++ a.render) := by
  have h :
      sprintfChars "failed to post payload, the server responded with a status of %v".data [a]
        = "failed to post payload, the server responded with a status of ".data
            ++ sprintfChars ['%', 'v'] [a] := rfl
  simp only [Errorf, h, sprintfChars_verb]
  congr 1

theorem validMethod_POST : validMethod "POST" = true := by decide

theorem NewRequest_POST (env : Env) (url : String) (body : Bytes) :
    NewRequest env "POST" url body
      = match env.urlParse url with
        | .error err => .error err
        | .ok u => .ok { Method := "POST", URL := u, Header := [], Body := body } := by
  have h1 : ("POST" = "") = False := by decide
  simp only [NewRequest, h1, if_false, validMethod_POST]
  rfl

theorem NewRequest_POST_ok (env : Env) (url : String) (body : Bytes) (req : Request)
    (hn : NewRequest env "POST" url body = .ok req) :
    req.Method = "POST" ∧ req.Header = [] ∧ req.Body = body ∧
      env.urlParse url = .ok req.URL := by
  rw [NewRequest_POST] at hn
  cases hu : env.urlParse url with
  | error d => simp [hu] at hn
  | ok u =>
    simp only [hu, Except.ok.injEq] at hn
    subst hn
    exact ⟨rfl, rfl, rfl, rfl⟩

theorem canonical_service_name : CanonicalMIMEHeaderKey "service-name" = "Service-Name" := by
  decide

theorem canonical_content_type : CanonicalMIMEHeaderKey "content-type" = "Content-Type" := by
  decide

theorem prepare_headers (h : Hook) (req : Request) (he : req.Header = []) :
    (h.prepare req).Header
      = [("Service-Name", [h.name]), ("Content-Type", ["application/json"])] := by
  have hne : ("Service-Name" = "Content-Type") = False := by decide
  simp only [Hook.prepare, he, Header.Add, canonical_service_name, canonical_content_type,
    Header.addRaw, hne, if_false]

/-! ## The outcomes of `Fire` -/

theorem Fire_hook (env : Env) (h : Hook) (entry : Entry) : (h.Fire env entry).hook = h := by
  unfold Hook.Fire
  simp only
  split
  · rfl
  · split
    · rfl
    · split
      · rfl
      · split
        · rfl
        · split
          · rfl
          · split <;> rfl

theorem Fire_of_marshal_error (env : Env) (h : Hook) (entry : Entry) (d : GoError)
    (hm : env.jsonMarshal entry.toLog = .error d) :
    h.Fire env entry
      = ⟨h, some (.errorString ("failed to marshal payload due to error " ++ d.Error)),
          [Call.jsonMarshal entry.toLog]⟩ := by
  simp only [Entry.toLog] at hm
  simp only [Hook.Fire, hm, Errorf_marshal, FmtArg.render, Entry.toLog]

theorem Fire_of_build_error (env : Env) (h : Hook) (entry : Entry) (payload : Bytes)
    (d : GoError)
    (hm : env.jsonMarshal entry.toLog = .ok payload)
    (hn : NewRequest env "POST" h.endpoint payload = .error d) :
    h.Fire env entry
      = ⟨h, some (.errorString ("failed to build request due to error " ++ d.Error)),
          [Call.jsonMarshal entry.toLog, Call.newRequest "POST" h.endpoint payload]⟩ := by
  simp only [Entry.toLog] at hm
  simp only [Hook.Fire, hm, hn, Errorf_build, FmtArg.render, Entry.toLog, List.singleton_append]

theorem Fire_of_before_error (env : Env) (h : Hook) (entry : Entry) (payload : Bytes)
    (req0 : Request) (f : BeforeFunc) (e : GoError)
    (hm : env.jsonMarshal entry.toLog = .ok payload)
    (hn : NewRequest env "POST" h.endpoint payload = .ok req0)
    (hf : h.BeforePost = some f)
    (he : (f (h.prepare req0)).2 = some e) :
    h.Fire env entry
      = ⟨h, some e,
          [Call.jsonMarshal entry.toLog, Call.newRequest "POST" h.endpoint payload,
            Call.beforePost (h.prepare req0)]⟩ := by
  simp only [Entry.toLog] at hm
  simp only [Hook.prepare] at he
  simp only [Hook.Fire, hm, hn, hf, he, Entry.toLog, Hook.prepare, List.singleton_append,
    List.cons_append, List.nil_append]

theorem Fire_of_transport_error (env : Env) (h : Hook) (entry : Entry) (payload : Bytes)
    (req0 req : Request) (d : GoError)
    (hm : env.jsonMarshal entry.toLog = .ok payload)
    (hn : NewRequest env "POST" h.endpoint payload = .ok req0)
    (hb : h.runBefore (h.prepare req0) = (req, none))
    (hd : env.clientDo h.client req = .error d) :
    h.Fire env entry
      = ⟨h, some (.errorString ("failed to perform request due to error " ++ d.Error)),
          [Call.jsonMarshal entry.toLog, Call.newRequest "POST" h.endpoint payload]
            ++ h.beforeCalls (h.prepare req0) ++ [Call.clientDo h.client req]⟩ := by
  simp only [Entry.toLog] at hm
  simp only [Hook.prepare, Hook.runBefore] at hb
  cases hf : h.BeforePost with
  | none =>
    simp only [hf, Prod.mk.injEq, and_true] at hb
    simp only [Hook.Fire, hm, hn, hf, hb, hd, Errorf_perform, FmtArg.render, Entry.toLog,
      Hook.prepare, Hook.beforeCalls, List.singleton_append, List.cons_append, List.nil_append,
      List.append_nil]
  | some f =>
    simp only [hf] at hb
    simp only [Hook.Fire, hm, hn, hf, hb, hd, Errorf_perform, FmtArg.render, Entry.toLog,
      Hook.prepare, Hook.beforeCalls, List.singleton_append, List.cons_append, List.nil_append,
      List.append_nil]

theorem Fire_of_after_error (env : Env) (h : Hook) (entry : Entry) (payload : Bytes)
    (req0 req : Request) (resp0 : Response) (g : AfterFunc) (e : GoError)
    (hm : env.jsonMarshal entry.toLog = .ok payload)
    (hn : NewRequest env "POST" h.endpoint payload = .ok req0)
    (hb : h.runBefore (h.prepare req0) = (req, none))
    (hd : env.clientDo h.client req = .ok resp0)
    (hg : h.AfterPost = some g)
    (he : (g resp0).2 = some e) :
    h.Fire env entry
      = ⟨h, some e,
          [Call.jsonMarshal entry.toLog, Call.newRequest "POST" h.endpoint payload]
            ++ h.beforeCalls (h.prepare req0)
            ++ [Call.clientDo h.client req, Call.afterPost resp0]⟩ := by
  simp only [Entry.toLog] at hm
  simp only [Hook.prepare, Hook.runBefore] at hb
  cases hf : h.BeforePost with
  | none =>
    simp only [hf, Prod.mk.injEq, and_true] at hb
    simp only [Hook.Fire, hm, hn, hf, hb, hd, hg, he, Entry.toLog,
      Hook.prepare, Hook.beforeCalls, List.singleton_append, List.cons_append, List.nil_append,
      List.append_nil]
  | some f =>
    simp only [hf] at hb
    simp only [Hook.Fire, hm, hn, hf, hb, hd, hg, he, Entry.toLog,
      Hook.prepare, Hook.beforeCalls, List.singleton_append, List.cons_append, List.nil_append,
      List.append_nil]

theorem Fire_of_response (env : Env) (h : Hook) (entry : Entry) (payload : Bytes)
    (req0 req : Request) (resp0 resp : Response)
    (hm : env.jsonMarshal entry.toLog = .ok payload)
    (hn : NewRequest env "POST" h.endpoint payload = .ok req0)
    (hb : h.runBefore (h.prepare req0) = (req, none))
    (hd : env.clientDo h.client req = .ok resp0)
    (ha : h.runAfter resp0 = (resp, none)) :
    h.Fire env entry
      = ⟨h,
          if resp.StatusCode > 201 then
            some (.errorString
              ("failed to post payload, the server responded with a status of "
                ++ toString resp.StatusCode))
          else none,
          [Call.jsonMarshal entry.toLog, Call.newRequest "POST" h.endpoint payload]
            ++ h.beforeCalls (h.prepare req0) ++ [Call.clientDo h.client req]
            ++ h.afterCalls resp0⟩ := by
  simp only [Entry.toLog] at hm
  simp only [Hook.prepare, Hook.runBefore] at hb
  simp only [Hook.runAfter] at ha
  cases hf : h.BeforePost with
  | none =>
    simp only [hf, Prod.mk.injEq, and_true] at hb
    cases hg : h.AfterPost with
    | none =>
      simp only [hg, Prod.mk.injEq, and_true] at ha
      simp only [Hook.Fire, hm, hn, hf, hb, hd, hg, ha, Entry.toLog, Errorf_status,
        FmtArg.render, StatusCreated, Hook.afterCalls,
        Hook.prepare, Hook.beforeCalls, List.singleton_append, List.cons_append,
        List.nil_append, List.append_nil]
      split <;> rfl
    | some g =>
      simp only [hg] at ha
      simp only [Hook.Fire, hm, hn, hf, hb, hd, hg, ha, Entry.toLog, Errorf_status,
        FmtArg.render, StatusCreated, Hook.afterCalls,
        Hook.prepare, Hook.beforeCalls, List.singleton_append, List.cons_append,
        List.nil_append, List.append_nil]
      split <;> rfl
  | some f =>
    simp only [hf] at hb
    cases hg : h.AfterPost with
    | none =>
      simp only [hg, Prod.mk.injEq, and_true] at ha
      simp only [Hook.Fire, hm, hn, hf, hb, hd, hg, ha, Entry.toLog, Errorf_status,
        FmtArg.render, StatusCreated, Hook.afterCalls,
        Hook.prepare, Hook.beforeCalls, List.singleton_append, List.cons_append,
        List.nil_append, List.append_nil]
      split <;> rfl
    | some g =>
      simp only [hg] at ha
      simp only [Hook.Fire, hm, hn, hf, hb, hd, hg, ha, Entry.toLog, Errorf_status,
        FmtArg.render, StatusCreated, Hook.afterCalls,
        Hook.prepare, Hook.beforeCalls, List.singleton_append, List.cons_append,
        List.nil_append, List.append_nil]
      split <;> rfl

theorem prepare_get_service_name (h : Hook) (req : Request) (he : req.Header = []) :
    (h.prepare req).Header.Get "service-name" = h.name := by
  simp only [Header.Get, prepare_headers h req he, canonical_service_name, List.lookup,
    beq_self_eq_true]

theorem prepare_get_content_type (h : Hook) (req : Request) (he : req.Header = []) :
    (h.prepare req).Header.Get "content-type" = "application/json" := by
  have hne : ("Content-Type" == "Service-Name") = false := by decide
  simp only [Header.Get, prepare_headers h req he, canonical_content_type, List.lookup, hne,
    beq_self_eq_true]

theorem runBefore_error (h : Hook) (req req1 : Request) (e : GoError)
    (hb : h.runBefore req = (req1, some e)) :
    ∃ f, h.BeforePost = some f ∧ (f req).2 = some e := by
  simp only [Hook.runBefore] at hb
  cases hf : h.BeforePost with
  | none => simp [hf] at hb
  | some f =>
    simp only [hf] at hb
    exact ⟨f, rfl, by rw [hb]⟩

theorem runAfter_error (h : Hook) (resp resp1 : Response) (e : GoError)
    (ha : h.runAfter resp = (resp1, some e)) :
    ∃ g, h.AfterPost = some g ∧ (g resp).2 = some e := by
  simp only [Hook.runAfter] at ha
  cases hg : h.AfterPost with
  | none => simp [hg] at ha
  | some g =>
    simp only [hg] at ha
    exact ⟨g, rfl, by rw [ha]⟩

theorem Fire_trace_sent (env : Env) (h : Hook) (entry : Entry) (payload : Bytes)
    (req0 req : Request)
    (hm : env.jsonMarshal entry.toLog = .ok payload)
    (hn : NewRequest env "POST" h.endpoint payload = .ok req0)
    (hb : h.runBefore (h.prepare req0) = (req, none)) :
    ∃ rest, (h.Fire env entry).trace
      = [Call.jsonMarshal entry.toLog, Call.newRequest "POST" h.endpoint payload]
          ++ h.beforeCalls (h.prepare req0) ++ Call.clientDo h.client req :: rest := by
  cases hd : env.clientDo h.client req with
  | error d =>
    exact ⟨[], by rw [Fire_of_transport_error env h entry payload req0 req d hm hn hb hd]⟩
  | ok resp0 =>
    rcases hra : h.runAfter resp0 with ⟨resp, oa⟩
    cases oa with
    | some e =>
      obtain ⟨g, hg, he⟩ := runAfter_error h resp0 resp e hra
      refine ⟨[Call.afterPost resp0], ?_⟩
      rw [Fire_of_after_error env h entry payload req0 req resp0 g e hm hn hb hd hg he]
    | none =>
      refine ⟨h.afterCalls resp0, ?_⟩
      rw [Fire_of_response env h entry payload req0 req resp0 resp hm hn hb hd hra]
      simp

theorem Fire_trace_take (env : Env) (h : Hook) (entry : Entry) (payload : Bytes)
    (req0 : Request)
    (hm : env.jsonMarshal entry.toLog = .ok payload)
    (hn : NewRequest env "POST" h.endpoint payload = .ok req0) :
    (h.Fire env entry).trace.take 3
      = [Call.jsonMarshal entry.toLog, Call.newRequest "POST" h.endpoint payload,
          match h.BeforePost with
          | some _ => Call.beforePost (h.prepare req0)
          | none => Call.clientDo h.client (h.prepare req0)] := by
  rcases hrb : h.runBefore (h.prepare req0) with ⟨req, ob⟩
  cases ob with
  | some e =>
    obtain ⟨f, hf, he⟩ := runBefore_error h _ req e hrb
    rw [Fire_of_before_error env h entry payload req0 f e hm hn hf he, hf]
    rfl
  | none =>
    obtain ⟨rest, hr⟩ := Fire_trace_sent env h entry payload req0 req hm hn hrb
    rw [hr]
    cases hf : h.BeforePost with
    | none =>
      simp only [Hook.runBefore, hf, Prod.mk.injEq, and_true] at hrb
      simp [Hook.beforeCalls, hf, hrb]
    | some f =>
      simp [Hook.beforeCalls, hf]

theorem Fire_trace_head (env : Env) (h : Hook) (entry : Entry) :
    (h.Fire env entry).trace.head? = some (Call.jsonMarshal entry.toLog) := by
  cases hm : env.jsonMarshal entry.toLog with
  | error d => rw [Fire_of_marshal_error env h entry d hm]; rfl
  | ok payload =>
    cases hn : NewRequest env "POST" h.endpoint payload with
    | error d => rw [Fire_of_build_error env h entry payload d hm hn]; rfl
    | ok req0 =>
      have ht := Fire_trace_take env h entry payload req0 hm hn
      cases hl : (h.Fire env entry).trace with
      | nil => simp [hl] at ht
      | cons c cs =>
        simp only [hl, List.take_succ_cons, List.cons.injEq] at ht
        simp [ht.1]

theorem Fire_fold_hook (env : Env) (entries : List Entry) (h : Hook) :
    entries.foldl (fun k e => (k.Fire env e).hook) h = h := by
  induction entries with
  | nil => rfl
  | cons e es ih => simpa only [List.foldl_cons, Fire_hook] using ih

/-! ## Properties of `Fire` -/

/-- C7: when serialization of the document fails with details `d`, `Fire` returns the error
`failed to marshal payload due to error ` followed by the text of `d`, and `json.Marshal` is
the only call made: no request is built or transmitted and no callback is invoked, whatever
the endpoint and the callbacks of the hook are. -/
theorem Fire_marshal_error (env : Env) (h : Hook) (entry : Entry) (d : GoError)
    (hm : env.jsonMarshal entry.toLog = .error d) :
    (h.Fire env entry).err
        = some (.errorString ("failed to marshal payload due to error " ++ d.Error)) ∧
      (h.Fire env entry).trace = [Call.jsonMarshal entry.toLog] ∧
      (h.Fire env entry).trace.all
        (fun c => !c.isNewRequest && !c.isBeforePost && !c.isClientDo && !c.isAfterPost)
          = true := by
  rw [Fire_of_marshal_error env h entry d hm]
  exact ⟨rfl, rfl, rfl⟩

/-- Test case 2: a channel among the fields, with both callbacks set. -/
theorem Fire_marshal_error_witness :
    testEnv.jsonMarshal chanEntry.toLog
        = .error (.other "*json.UnsupportedTypeError" "json: unsupported type: chan int") ∧
      (refusedHook.Fire testEnv chanEntry).err
        = some (.errorString
            "failed to marshal payload due to error json: unsupported type: chan int") ∧
      (refusedHook.Fire testEnv chanEntry).trace = [Call.jsonMarshal chanEntry.toLog] :=
  ⟨rfl,
    (Fire_marshal_error testEnv refusedHook chanEntry
      (.other "*json.UnsupportedTypeError" "json: unsupported type: chan int")
      rfl).1.trans (by decide),
    (Fire_marshal_error testEnv refusedHook chanEntry
      (.other "*json.UnsupportedTypeError" "json: unsupported type: chan int")
      rfl).2.1⟩

/-- C8, as stated, fails: the endpoint `""` of test case 4 is missing a URL scheme, yet it
parses, the request is built and the pre-send callback is invoked; `Fire` returns the
failure of the callback, not a request-construction error. Hence it is not true that every
endpoint missing a scheme makes `Fire` return a request-construction error with no callback
invoked. -/
theorem Fire_schemeless_endpoint_builds_request :
    (missingScheme beforeErrHook.endpoint = true ∧
      missingScheme ":" = true ∧
      testEnv.jsonMarshal testEntry.toLog = .ok testPayload ∧
      testEnv.urlParse beforeErrHook.endpoint = .ok ⟨"", "", "", ""⟩ ∧
      (beforeErrHook.Fire testEnv testEntry).err = some (.errorString "before-error") ∧
      (beforeErrHook.Fire testEnv testEntry).trace
        = [Call.jsonMarshal testEntry.toLog, Call.newRequest "POST" "" testPayload,
            Call.beforePost
              ⟨"POST", ⟨"", "", "", ""⟩,
                [("Service-Name", [""]), ("Content-Type", ["application/json"])],
                testPayload⟩]) ∧
    ¬ (∀ (env : Env) (h : Hook) (entry : Entry) (payload : Bytes),
        env.jsonMarshal entry.toLog = .ok payload →
        missingScheme h.endpoint = true →
        (∃ d : GoError, (h.Fire env entry).err
          = some (.errorString ("failed to build request due to error " ++ d.Error))) ∧
        (h.Fire env entry).trace.all
          (fun c => !c.isBeforePost && !c.isClientDo && !c.isAfterPost) = true) := by
  refine ⟨⟨by decide, by decide, rfl, rfl, by decide, by decide⟩, ?_⟩
  intro H
  have key := (H testEnv beforeErrHook testEntry testPayload rfl (by decide)).2
  have hcalled : (beforeErrHook.Fire testEnv testEntry).trace.all
      (fun c => !c.isBeforePost && !c.isClientDo && !c.isAfterPost) = false := by decide
  rw [hcalled] at key
  cases key

/-- C8, amended: when the document serializes and parsing the endpoint fails with details `d`
(as it does for `":"`, where nothing stands before the colon), `Fire` returns the error
`failed to build request due to error ` followed by the text of `d`; the only calls made are
`json.Marshal` and `http.NewRequest`: no callback is invoked and nothing is transmitted. -/
theorem Fire_build_error (env : Env) (h : Hook) (entry : Entry) (payload : Bytes)
    (d : GoError)
    (hm : env.jsonMarshal entry.toLog = .ok payload)
    (hu : env.urlParse h.endpoint = .error d) :
    (h.Fire env entry).err
        = some (.errorString ("failed to build request due to error " ++ d.Error)) ∧
      (h.Fire env entry).trace
        = [Call.jsonMarshal entry.toLog, Call.newRequest "POST" h.endpoint payload] ∧
      (h.Fire env entry).trace.all
        (fun c => !c.isBeforePost && !c.isClientDo && !c.isAfterPost) = true := by
  have hn : NewRequest env "POST" h.endpoint payload = .error d := by
    rw [NewRequest_POST, hu]
  rw [Fire_of_build_error env h entry payload d hm hn]
  exact ⟨rfl, rfl, rfl⟩

/-- Test case 3: the endpoint `":"`. -/
theorem Fire_build_error_witness :
    testEnv.jsonMarshal testEntry.toLog
        = .ok testPayload ∧
      testEnv.urlParse badUrlHook.endpoint
        = .error (.other "*url.Error" "parse :: missing protocol scheme") ∧
      (badUrlHook.Fire testEnv testEntry).err
        = some (.errorString
            "failed to build request due to error parse :: missing protocol scheme") ∧
      (badUrlHook.Fire testEnv testEntry).trace.all
        (fun c => !c.isBeforePost && !c.isClientDo && !c.isAfterPost) = true :=
  ⟨rfl, rfl,
    (Fire_build_error testEnv badUrlHook testEntry testPayload
      (.other "*url.Error" "parse :: missing protocol scheme")
      rfl rfl).1.trans (by decide),
    (Fire_build_error testEnv badUrlHook testEntry testPayload
      (.other "*url.Error" "parse :: missing protocol scheme")
      rfl rfl).2.2⟩

/-- C4: when the document serializes, the request is built and the pre-send callback returns
a failure `e` on the request it is handed, `Fire` returns exactly `e`; the calls made are
`json.Marshal`, `http.NewRequest` and the callback: the client is not invoked and neither is
the post-send callback, whatever transmission would have given. -/
theorem Fire_before_error (env : Env) (h : Hook) (entry : Entry) (payload : Bytes)
    (req0 : Request) (f : BeforeFunc) (e : GoError)
    (hm : env.jsonMarshal entry.toLog = .ok payload)
    (hn : NewRequest env "POST" h.endpoint payload = .ok req0)
    (hf : h.BeforePost = some f)
    (he : (f (h.prepare req0)).2 = some e) :
    (h.Fire env entry).err = some e ∧
      (h.Fire env entry).trace
        = [Call.jsonMarshal entry.toLog, Call.newRequest "POST" h.endpoint payload,
            Call.beforePost (h.prepare req0)] ∧
      (h.Fire env entry).trace.all (fun c => !c.isClientDo && !c.isAfterPost) = true := by
  rw [Fire_of_before_error env h entry payload req0 f e hm hn hf he]
  exact ⟨rfl, rfl, rfl⟩

/-- Test case 4: the pre-send callback fails with `before-error`. -/
theorem Fire_before_error_witness :
    testEnv.jsonMarshal testEntry.toLog
        = .ok testPayload ∧
      NewRequest testEnv "POST" beforeErrHook.endpoint testPayload
        = .ok ⟨"POST", ⟨"", "", "", ""⟩, [], testPayload⟩ ∧
      (beforeErrHook.Fire testEnv testEntry).err = some (.errorString "before-error") ∧
      (beforeErrHook.Fire testEnv testEntry).trace.all
        (fun c => !c.isClientDo && !c.isAfterPost) = true :=
  ⟨rfl, rfl,
    (Fire_before_error testEnv beforeErrHook testEntry testPayload
      ⟨"POST", ⟨"", "", "", ""⟩, [], testPayload⟩
      failingBefore (.errorString "before-error") rfl rfl rfl rfl).1,
    (Fire_before_error testEnv beforeErrHook testEntry testPayload
      ⟨"POST", ⟨"", "", "", ""⟩, [], testPayload⟩
      failingBefore (.errorString "before-error") rfl rfl rfl rfl).2.2⟩

/-- C9: when the document serializes, the request is built, the pre-send step succeeds and
leaves the request `req`, and transmitting `req` fails with details `d`, `Fire` returns the
error `failed to perform request due to error ` followed by the text of `d`, and the
post-send callback is not invoked. -/
theorem Fire_transport_error (env : Env) (h : Hook) (entry : Entry) (payload : Bytes)
    (req0 req : Request) (d : GoError)
    (hm : env.jsonMarshal entry.toLog = .ok payload)
    (hn : NewRequest env "POST" h.endpoint payload = .ok req0)
    (hb : h.runBefore (h.prepare req0) = (req, none))
    (hd : env.clientDo h.client req = .error d) :
    (h.Fire env entry).err
        = some (.errorString ("failed to perform request due to error " ++ d.Error)) ∧
      (h.Fire env entry).trace
        = [Call.jsonMarshal entry.toLog, Call.newRequest "POST" h.endpoint payload]
            ++ h.beforeCalls (h.prepare req0) ++ [Call.clientDo h.client req] ∧
      (h.Fire env entry).trace.all (fun c => !c.isAfterPost) = true := by
  rw [Fire_of_transport_error env h entry payload req0 req d hm hn hb hd]
  refine ⟨rfl, rfl, ?_⟩
  cases hf : h.BeforePost <;> simp [Hook.beforeCalls, hf, Call.isAfterPost]

/-- Test case 7: nothing listens at the endpoint; the post-send callback is set. -/
theorem Fire_transport_error_witness :
    testEnv.jsonMarshal testEntry.toLog = .ok testPayload ∧
      NewRequest testEnv "POST" refusedHook.endpoint testPayload
        = .ok ⟨"POST", ⟨"http", "localhost:8081", "/invalid", ""⟩, [], testPayload⟩ ∧
      (refusedHook.Fire testEnv testEntry).err
        = some (.errorString ("failed to perform request due to error "
            ++ "Post http://localhost:8081/invalid: dial tcp [::1]:8081: connection refused")) ∧
      (refusedHook.Fire testEnv testEntry).trace.all (fun c => !c.isAfterPost) = true :=
  ⟨rfl, rfl,
    (Fire_transport_error testEnv refusedHook testEntry testPayload
      ⟨"POST", ⟨"http", "localhost:8081", "/invalid", ""⟩, [], testPayload⟩
      (tokenBefore (refusedHook.prepare
        ⟨"POST", ⟨"http", "localhost:8081", "/invalid", ""⟩, [], testPayload⟩)).1
      (.other "*url.Error"
        "Post http://localhost:8081/invalid: dial tcp [::1]:8081: connection refused")
      rfl rfl rfl rfl).1,
    (Fire_transport_error testEnv refusedHook testEntry testPayload
      ⟨"POST", ⟨"http", "localhost:8081", "/invalid", ""⟩, [], testPayload⟩
      (tokenBefore (refusedHook.prepare
        ⟨"POST", ⟨"http", "localhost:8081", "/invalid", ""⟩, [], testPayload⟩)).1
      (.other "*url.Error"
        "Post http://localhost:8081/invalid: dial tcp [::1]:8081: connection refused")
      rfl rfl rfl rfl).2.2⟩

/-- C3: when the request is transmitted and answered by `resp0`, whatever the status code of
`resp0`, and the post-send callback returns a failure `e` on `resp0`, `Fire` returns exactly
`e`: the status code is not classified and no text is added. -/
theorem Fire_after_error (env : Env) (h : Hook) (entry : Entry) (payload : Bytes)
    (req0 req : Request) (resp0 : Response) (g : AfterFunc) (e : GoError)
    (hm : env.jsonMarshal entry.toLog = .ok payload)
    (hn : NewRequest env "POST" h.endpoint payload = .ok req0)
    (hb : h.runBefore (h.prepare req0) = (req, none))
    (hd : env.clientDo h.client req = .ok resp0)
    (hg : h.AfterPost = some g)
    (he : (g resp0).2 = some e) :
    (h.Fire env entry).err = some e ∧
      (h.Fire env entry).trace.getLast? = some (Call.afterPost resp0) := by
  rw [Fire_of_after_error env h entry payload req0 req resp0 g e hm hn hb hd hg he]
  refine ⟨rfl, ?_⟩
  cases hf : h.BeforePost <;> simp [Hook.beforeCalls, hf]

/-- The post-send callback fails with `after-error` on a response with status 404. -/
theorem Fire_after_error_witness :
    testEnv.jsonMarshal testEntry.toLog = .ok testPayload ∧
      NewRequest testEnv "POST" afterErrHook.endpoint testPayload
        = .ok ⟨"POST", ⟨"http", "localhost:8080", "/invalid", ""⟩, [], testPayload⟩ ∧
      testEnv.clientDo afterErrHook.client
          (afterErrHook.prepare
            ⟨"POST", ⟨"http", "localhost:8080", "/invalid", ""⟩, [], testPayload⟩)
        = .ok ⟨404, [], []⟩ ∧
      (afterErrHook.Fire testEnv testEntry).err = some (.errorString "after-error") :=
  ⟨rfl, rfl, rfl,
    (Fire_after_error testEnv afterErrHook testEntry testPayload
      ⟨"POST", ⟨"http", "localhost:8080", "/invalid", ""⟩, [], testPayload⟩
      (afterErrHook.prepare
        ⟨"POST", ⟨"http", "localhost:8080", "/invalid", ""⟩, [], testPayload⟩)
      ⟨404, [], []⟩ failingAfter (.errorString "after-error")
      rfl rfl rfl rfl rfl rfl).1⟩

/-- C1, as stated, fails: with no callback set and a server that answers 101, every step of
`Fire` succeeds and `Fire` returns `nil`, although 101 is neither 200 nor 201; hence it is
not true that `Fire` succeeds exactly on the status codes 200 and 201. -/
theorem Fire_nil_on_status_101 :
    (testEnv.jsonMarshal testEntry.toLog = .ok testPayload ∧
      NewRequest testEnv "POST" upgradeHook.endpoint testPayload
        = .ok ⟨"POST", ⟨"http", "localhost:8080", "/upgrade", ""⟩, [], testPayload⟩ ∧
      upgradeHook.BeforePost.isNone = true ∧
      testEnv.clientDo upgradeHook.client
          (upgradeHook.prepare
            ⟨"POST", ⟨"http", "localhost:8080", "/upgrade", ""⟩, [], testPayload⟩)
        = .ok ⟨101, [], []⟩ ∧
      upgradeHook.AfterPost.isNone = true ∧
      (upgradeHook.Fire testEnv testEntry).err = none) ∧
    ¬ (∀ (env : Env) (h : Hook) (entry : Entry) (payload : Bytes) (req0 req : Request)
        (resp0 resp : Response),
        env.jsonMarshal entry.toLog = .ok payload →
        NewRequest env "POST" h.endpoint payload = .ok req0 →
        h.runBefore (h.prepare req0) = (req, none) →
        env.clientDo h.client req = .ok resp0 →
        h.runAfter resp0 = (resp, none) →
        ((h.Fire env entry).err = none ↔ (resp.StatusCode = 200 ∨ resp.StatusCode = 201))) := by
  refine ⟨⟨rfl, rfl, rfl, rfl, rfl, rfl⟩, ?_⟩
  intro H
  have key := H testEnv upgradeHook testEntry testPayload
    ⟨"POST", ⟨"http", "localhost:8080", "/upgrade", ""⟩, [], testPayload⟩
    (upgradeHook.prepare ⟨"POST", ⟨"http", "localhost:8080", "/upgrade", ""⟩, [], testPayload⟩)
    ⟨101, [], []⟩ ⟨101, [], []⟩ rfl rfl rfl rfl rfl
  have hnil : (upgradeHook.Fire testEnv testEntry).err = none := rfl
  have hbad : ¬ ((101 : Int) = 200 ∨ (101 : Int) = 201) := by decide
  exact hbad (key.mp hnil)

/-- C1, amended: when serialization, request construction, the pre-send step, transmission
and the post-send step all succeed and leave the response `resp`, `Fire` returns `nil` if and
only if the status code of `resp` is at most 201. -/
theorem Fire_nil_iff_status_le_201 (env : Env) (h : Hook) (entry : Entry) (payload : Bytes)
    (req0 req : Request) (resp0 resp : Response)
    (hm : env.jsonMarshal entry.toLog = .ok payload)
    (hn : NewRequest env "POST" h.endpoint payload = .ok req0)
    (hb : h.runBefore (h.prepare req0) = (req, none))
    (hd : env.clientDo h.client req = .ok resp0)
    (ha : h.runAfter resp0 = (resp, none)) :
    (h.Fire env entry).err = none ↔ resp.StatusCode ≤ 201 := by
  rw [Fire_of_response env h entry payload req0 req resp0 resp hm hn hb hd ha]
  by_cases hc : resp.StatusCode > 201
  · simp only [hc, if_true]
    constructor
    · intro hcontra
      cases hcontra
    · intro hle
      omega
  · simp only [hc, if_false, true_iff]
    omega

/-- Test case 1: the server answers 200 and `Fire` returns `nil`. -/
theorem Fire_nil_iff_status_le_201_witness :
    testEnv.jsonMarshal testEntry.toLog = .ok testPayload ∧
      NewRequest testEnv "POST" okHook.endpoint testPayload
        = .ok ⟨"POST", ⟨"http", "localhost:8080", "/logs", ""⟩, [], testPayload⟩ ∧
      testEnv.clientDo okHook.client
          (okHook.prepare ⟨"POST", ⟨"http", "localhost:8080", "/logs", ""⟩, [], testPayload⟩)
        = .ok ⟨200, [], []⟩ ∧
      (okHook.Fire testEnv testEntry).err = none :=
  ⟨rfl, rfl, rfl,
    (Fire_nil_iff_status_le_201 testEnv okHook testEntry testPayload
      ⟨"POST", ⟨"http", "localhost:8080", "/logs", ""⟩, [], testPayload⟩
      (okHook.prepare ⟨"POST", ⟨"http", "localhost:8080", "/logs", ""⟩, [], testPayload⟩)
      ⟨200, [], []⟩ ⟨200, [], []⟩ rfl rfl rfl rfl rfl).mpr (by decide)⟩

/-- C2: when all earlier steps succeed and leave a response whose status code `c` is greater
than 201, `Fire` returns the error
`failed to post payload, the server responded with a status of ` followed by `c` in
decimal. -/
theorem Fire_bad_status (env : Env) (h : Hook) (entry : Entry) (payload : Bytes)
    (req0 req : Request) (resp0 resp : Response) (c : Int)
    (hm : env.jsonMarshal entry.toLog = .ok payload)
    (hn : NewRequest env "POST" h.endpoint payload = .ok req0)
    (hb : h.runBefore (h.prepare req0) = (req, none))
    (hd : env.clientDo h.client req = .ok resp0)
    (ha : h.runAfter resp0 = (resp, none))
    (hs : resp.StatusCode = c)
    (hc : c > 201) :
    (h.Fire env entry).err
      = some (.errorString
          ("failed to post payload, the server responded with a status of "
            ++ Nat.repr c.toNat)) := by
  rw [Fire_of_response env h entry payload req0 req resp0 resp hm hn hb hd ha, hs]
  simp only [hc, if_true]
  cases c with
  | ofNat n => rfl
  | negSucc n =>
    have hneg : Int.negSucc n < 0 := Int.negSucc_lt_zero n
    omega

/-- Test case 6: the server answers 404 and no post-send callback is set. -/
theorem Fire_bad_status_witness :
    testEnv.jsonMarshal testEntry.toLog = .ok testPayload ∧
      NewRequest testEnv "POST" notFoundHook.endpoint testPayload
        = .ok ⟨"POST", ⟨"http", "localhost:8080", "/invalid", ""⟩, [], testPayload⟩ ∧
      testEnv.clientDo notFoundHook.client
          (notFoundHook.prepare
            ⟨"POST", ⟨"http", "localhost:8080", "/invalid", ""⟩, [], testPayload⟩)
        = .ok ⟨404, [], []⟩ ∧
      (notFoundHook.Fire testEnv testEntry).err
        = some (.errorString
            "failed to post payload, the server responded with a status of 404") :=
  ⟨rfl, rfl, rfl,
    (Fire_bad_status testEnv notFoundHook testEntry testPayload
      ⟨"POST", ⟨"http", "localhost:8080", "/invalid", ""⟩, [], testPayload⟩
      (notFoundHook.prepare
        ⟨"POST", ⟨"http", "localhost:8080", "/invalid", ""⟩, [], testPayload⟩)
      ⟨404, [], []⟩ ⟨404, [], []⟩ 404 rfl rfl rfl rfl rfl rfl (by decide)).trans (by decide)⟩

/-- C5: when the document serializes and the request is built, the request handed to the
pre-send callback, or to the client when no callback is set, has method `POST`, the header
`service-name` equal to the name of the hook and the header `content-type` equal to
`application/json`; that hand-over is the first call `Fire` makes after building the request,
so both headers are set before any callback runs, whether or not callbacks are set. -/
theorem Fire_request_headers (env : Env) (h : Hook) (entry : Entry) (payload : Bytes)
    (req0 : Request)
    (hm : env.jsonMarshal entry.toLog = .ok payload)
    (hn : NewRequest env "POST" h.endpoint payload = .ok req0) :
    (h.prepare req0).Method = "POST" ∧
      (h.prepare req0).Header.Get "service-name" = h.name ∧
      (h.prepare req0).Header.Get "content-type" = "application/json" ∧
      (h.Fire env entry).trace.take 3
        = [Call.jsonMarshal entry.toLog, Call.newRequest "POST" h.endpoint payload,
            match h.BeforePost with
            | some _ => Call.beforePost (h.prepare req0)
            | none => Call.clientDo h.client (h.prepare req0)] := by
  obtain ⟨hmeth, hhead, _, _⟩ := NewRequest_POST_ok env h.endpoint payload req0 hn
  exact ⟨hmeth, prepare_get_service_name h req0 hhead, prepare_get_content_type h req0 hhead,
    Fire_trace_take env h entry payload req0 hm hn⟩

/-- The hook of test case 7: the request handed to the pre-send callback. -/
theorem Fire_request_headers_witness :
    testEnv.jsonMarshal testEntry.toLog = .ok testPayload ∧
      NewRequest testEnv "POST" refusedHook.endpoint testPayload
        = .ok ⟨"POST", ⟨"http", "localhost:8081", "/invalid", ""⟩, [], testPayload⟩ ∧
      (refusedHook.Fire testEnv testEntry).trace.take 3
        = [Call.jsonMarshal testEntry.toLog,
            Call.newRequest "POST" "http://localhost:8081/invalid" testPayload,
            Call.beforePost
              ⟨"POST", ⟨"http", "localhost:8081", "/invalid", ""⟩,
                [("Service-Name", ["test-service"]), ("Content-Type", ["application/json"])],
                testPayload⟩] :=
  ⟨rfl, rfl,
    (Fire_request_headers testEnv refusedHook testEntry testPayload
      ⟨"POST", ⟨"http", "localhost:8081", "/invalid", ""⟩, [], testPayload⟩
      rfl rfl).2.2.2.trans (by decide)⟩

/-- C6: the document `Fire` hands to `json.Marshal` has exactly the members `message`,
`fields` and `timestamp`, holding the message, data and time of the entry; and when it
serializes to `payload` and the request is built, `payload` is the body `http.NewRequest` is
given and the body of the request handed to the pre-send callback, or to the client when no
callback is set. -/
theorem Fire_document (env : Env) (h : Hook) (entry : Entry) :
    (h.Fire env entry).trace.head?
        = some (Call.jsonMarshal
            { Message := entry.Message, Fields := entry.Data, Timestamp := entry.Time }) ∧
      Log.members { Message := entry.Message, Fields := entry.Data, Timestamp := entry.Time }
        = [("message", .string entry.Message), ("fields", .object entry.Data),
            ("timestamp", .time entry.Time)] ∧
      ∀ (payload : Bytes) (req0 : Request),
        env.jsonMarshal
            { Message := entry.Message, Fields := entry.Data, Timestamp := entry.Time }
          = .ok payload →
        NewRequest env "POST" h.endpoint payload = .ok req0 →
        ∃ req : Request, req.Body = payload ∧
          (h.Fire env entry).trace.take 3
            = [Call.jsonMarshal
                { Message := entry.Message, Fields := entry.Data, Timestamp := entry.Time },
              Call.newRequest "POST" h.endpoint payload,
              match h.BeforePost with
              | some _ => Call.beforePost req
              | none => Call.clientDo h.client req] := by
  refine ⟨Fire_trace_head env h entry, rfl, ?_⟩
  intro payload req0 hm hn
  obtain ⟨_, _, hbody, _⟩ := NewRequest_POST_ok env h.endpoint payload req0 hn
  exact ⟨h.prepare req0, hbody, Fire_trace_take env h entry payload req0 hm hn⟩

/-- Test case 1: the document and the body of the request. -/
theorem Fire_document_witness :
    (okHook.Fire testEnv testEntry).trace.head?
        = some (Call.jsonMarshal
            { Message := "test-message", Fields := [("test-key", .str "test-value")],
              Timestamp := { sec := 1546300800, nsec := 0, loc := "UTC" } }) ∧
      ∃ req : Request, req.Body = testPayload ∧
        (okHook.Fire testEnv testEntry).trace.take 3
          = [Call.jsonMarshal testEntry.toLog,
              Call.newRequest "POST" okHook.endpoint testPayload,
              match okHook.BeforePost with
              | some _ => Call.beforePost req
              | none => Call.clientDo okHook.client req] :=
  ⟨(Fire_document testEnv okHook testEntry).1,
    (Fire_document testEnv okHook testEntry).2.2 testPayload
      ⟨"POST", ⟨"http", "localhost:8080", "/logs", ""⟩, [], testPayload⟩ rfl rfl⟩

/-- C10: the levels of the hook `New` returns are the list it was given, as it was given; and
whatever the entry and the outcome, the levels, name, endpoint and callback slots of a hook
are after `Fire` what they were before, also after any number of calls. -/
theorem New_Levels_and_Fire_frame (name endpoint : String) (L : List Level) :
    (New name endpoint L).Levels = L ∧
      (∀ (env : Env) (h : Hook) (entry : Entry),
        (h.Fire env entry).hook.Levels = h.Levels ∧
        (h.Fire env entry).hook.name = h.name ∧
        (h.Fire env entry).hook.endpoint = h.endpoint ∧
        (h.Fire env entry).hook.BeforePost = h.BeforePost ∧
        (h.Fire env entry).hook.AfterPost = h.AfterPost) ∧
      ∀ (env : Env) (entries : List Entry),
        (entries.foldl (fun k e => (k.Fire env e).hook) (New name endpoint L)).Levels = L := by
  refine ⟨rfl, ?_, ?_⟩
  · intro env h entry
    rw [Fire_hook]
    exact ⟨rfl, rfl, rfl, rfl, rfl⟩
  · intro env entries
    rw [Fire_fold_hook]
    rfl

end Httphook
